import Mathlib

/-!
Verification development for the rule evaluation and scoping engine of
`ai_title_workshop.py` (AI Title Workshop).  The Python source is shallowly
embedded: the `Rule` dataclass becomes a Lean structure, the JSON documents
read and written by the workspace store become an inductive `JVal` value,
and the stateful methods of `WorkshopApp` become pure functions on the parts
of the state they touch.  The regular-expression engine (the Python `re`
module) is external to the repository and is modelled abstractly as a
`RegexEngine`: a compile function that either returns an executable matcher
or a diagnostic message, exactly the interface `compile_rule` consumes.
-/

/-! ## Scope constants (source: `SCOPE_TMP` / `SCOPE_GLOBAL` / `SCOPE_GENRE`) -/

def SCOPE_TMP : String := "TMP"

def SCOPE_GLOBAL : String := "__global__"

def SCOPE_GENRE : String := "__genre__"

/-! ## Rule data model (source: `@dataclass class Rule`) -/

/-- The `Rule` dataclass.  Field defaults follow the dataclass defaults:
`enabled=True`, `flags=0`, `source="WORKSHOP"`, `error=""`, `genres=None`,
`scope=SCOPE_GLOBAL`, `apply_genre=""`. -/

structure Rule where
  key : String
  name : String
  pattern : String
  why : String
  enabled : Bool := true
  flags : Int := 0
  source : String := "WORKSHOP"
  error : String := ""
  genres : Option (List String) := none
  scope : String := SCOPE_GLOBAL
  apply_genre : String := ""
  deriving DecidableEq

/-- An executable matcher, standing for a compiled `re.Pattern` queried with
`pattern.search(title)`: it reports whether the pattern matches anywhere in
the given string. -/

abbrev Matcher := String → Bool

/-- Modelled from the spec: the external regular-expression evaluator the
core delegates to (the Python `re.compile`).  Compilation of pattern text with
a flag bitmask either succeeds with a matcher or fails with the diagnostic
message of the engine (the payload of `re.error`). -/

structure RegexEngine where
  compile : String → Int → Except String Matcher

/-! ## Pattern Compiler (source: `compile_rule`, `recompile_all`) -/

/-- The function `compile_rule(r)`.  A disabled rule or a rule with empty
pattern text is never compiled.  On compile failure the `error`
field of the rule is set to the engine diagnostic and no matcher is returned.  The
Python function mutates `r` in place; here the (possibly updated) rule is
returned next to the optional matcher. -/

def compile_rule (E : RegexEngine) (r : Rule) : Rule × Option Matcher :=
  if !r.enabled || r.pattern == "" then (r, none)
  else
    match E.compile r.pattern r.flags with
    | .ok m => (r, some m)
    | .error e => ({ r with error := e }, none)

/-- The method `recompile_all`: for every rule, clear its `error` field and
then compile it, collecting the parallel list `self.compiled`. -/

def recompile_all (E : RegexEngine) (rules : List Rule) :
    List Rule × List (Option Matcher) :=
  let pairs := rules.map (fun r => compile_rule E { r with error := "" })
  (pairs.map Prod.fst, pairs.map Prod.snd)

/-! ## Match Engine (source: `update_rule_hits`) -/

/-- Whether a single rule fires on a title: the inner-loop test of
`update_rule_hits` — skip when `(not r.enabled) or cre is None`, otherwise
test `cre.search(t)`. -/

def fires (r : Rule) (c : Option Matcher) (t : String) : Bool :=
  r.enabled && (match c with
    | some m => m t
    | none => false)

/-- Index of the first rule that fires on a title, scanning the
rule/matcher pairs in collection order — the inner `for idx, r in
enumerate(self.rules)` loop with its `break`. -/

def firstMatchIdx : List (Rule × Option Matcher) → String → Option Nat
  | [], _ => none
  | (r, c) :: rest, t =>
    if fires r c t then some 0
    else (firstMatchIdx rest t).map (· + 1)

/-- The contribution of one title to the hit counters: `r._hit += 1` on the
first firing rule, counters untouched when no rule fires. -/

def hitStep (ps : List (Rule × Option Matcher)) (counts : List Nat)
    (t : String) : List Nat :=
  match firstMatchIdx ps t with
  | some i => counts.set i (counts.getD i 0 + 1)
  | none => counts

/-- The method `update_rule_hits`: all counters start at zero
(`r._hit = 0`), the title list is capped to its first 3000 entries
(`titles[:3000]`), and each capped title bumps the counter of the first
enabled rule whose compiled matcher matches it.  `compiled` is the parallel
matcher list maintained by `recompile_all`. -/

def update_rule_hits (rules : List Rule) (compiled : List (Option Matcher))
    (titles : List String) : List Nat :=
  (titles.take 3000).foldl (hitStep (rules.zip compiled))
    (List.replicate rules.length 0)

/-- The error listing of `refresh_preview`: `errs = [r for r in self.rules
if r.error]` (the preview window then displays the first 20 of these). -/

def preview_errors (rules : List Rule) : List Rule :=
  rules.filter (fun r => r.error != "")

/-! ## Scope Resolver (source: `refresh_rule_tree.visible`,
`promote_selected_rule_to_global`, `clear_tmp_scope`) -/

/-- The nested function `visible(r)` of `refresh_rule_tree`, with the
selected scope context (`scope`, and the active genre `g`) made explicit:
`rs = r.scope or SCOPE_GLOBAL`, then compare against the context. -/

def visible (scope g : String) (r : Rule) : Bool :=
  let rs := if r.scope == "" then SCOPE_GLOBAL else r.scope
  if scope == SCOPE_TMP then rs == SCOPE_TMP
  else if scope == SCOPE_GENRE then rs == SCOPE_GENRE && r.apply_genre == g
  else rs == SCOPE_GLOBAL

/-- Promotion of one rule to the GLOBAL scope: `r.scope = SCOPE_GLOBAL;
r.apply_genre = ""`. -/

def promote_rule_to_global (r : Rule) : Rule :=
  { r with scope := SCOPE_GLOBAL, apply_genre := "" }

/-- The method `promote_selected_rule_to_global` acting on the rule list at
the selected index (no selection, i.e. an out-of-range index, leaves the
list unchanged, matching the early `return`). -/

def promote_selected_rule_to_global (rules : List Rule) (i : Nat) : List Rule :=
  match rules[i]? with
  | some r => rules.set i (promote_rule_to_global r)
  | none => rules

/-! ## Ignore-word store and workspace value -/

/-- The scoped ignore-word structure `self.ignore_scoped`: a GLOBAL bucket,
a TEMPORARY bucket and a genre-name-keyed mapping. -/

structure IgnoreScoped where
  global : List String
  tmp : List String
  genreMap : List (String × List String)
  deriving DecidableEq

/-- The method `clear_tmp_scope` (after the user confirms the dialog):
drop every rule whose scope is `SCOPE_TMP` and reset the TMP ignore-word
bucket to the empty list. -/

def clear_tmp_scope (rules : List Rule) (ig : IgnoreScoped) :
    List Rule × IgnoreScoped :=
  (rules.filter (fun r => r.scope != SCOPE_TMP), { ig with tmp := [] })

/-! ## Rule lifecycle operations (source: `add_new_rule`, `add_heuristics`,
`delete_selected_rule`, `heuristic_suggestions`) -/

/-- The set of characters that the Python `re.escape` prepends a backslash to
(its special-character map). -/

def reSpecial : List Char :=
  ['(', ')', '[', ']', '\x7b', '\x7d', '?', '*', '+', '-', '|', '^', '$',
   '\\', '.', '&', '~', '#', ' ', '\t', '\n', '\r', '\x0b', '\x0c']

/-- The Python `re.escape`: every special character gets a backslash, all
other characters pass through. -/

def re_escape (s : String) : String :=
  String.mk (s.data.foldr
    (fun c acc => if reSpecial.contains c then '\\' :: c :: acc else c :: acc)
    [])

/-- The first starter rule of `heuristic_suggestions` (tail numbers). -/

def tail_number_rule : Rule :=
  { key := "tail_number",
    name := "末尾番号（01/001/12-345 など）",
    pattern := "(?i)(?:^|[ _\\-\\u3000])\\d\x7b1,4\x7d(?:-\\d\x7b1,4\x7d)?$",
    why := "末尾の巻数/番号っぽい部分を除外するため" }

/-- The second starter rule of `heuristic_suggestions` (bracket tags). -/

def bracket_tag_rule : Rule :=
  { key := "bracket_tag",
    name := "括弧タグ（[...]/(...)/【...】）",
    pattern := "[\\[\\(（【].\x7b1,30\x7d?[\\]\\)）】]",
    why := "表紙/差分/修正版などが括弧に入ることが多いため" }

/-- The optional ignore-word starter rule of `heuristic_suggestions`:
the escaped ignore words (first 80) joined with `|`. -/

def ignore_words_rule (parts : List String) : Rule :=
  { key := "ignore_words",
    name := "無視語（まとめ）",
    pattern := "(?i)(" ++ String.intercalate "|" (parts.take 80) ++ ")",
    why := "無視語に入っている語をまとめて除外するため" }

/-- The last starter rule of `heuristic_suggestions` (camera prefixes). -/

def camera_prefix_rule : Rule :=
  { key := "camera_prefix",
    name := "カメラ系プレフィックス（IMG_/DSC_ など）",
    pattern := "(?i)\\b(?:img|dsc|pxl|vid|mv)[ _-]?\\d\x7b3,\x7d\\b",
    why := "撮影機器由来の管理番号を除外するため" }

/-- The function `heuristic_suggestions(examples, ignore_words)`: tail
number rule, bracket tag rule, then — when the ignore-word list is
non-empty and at least one word survives stripping — the combined
ignore-word rule, and finally the camera prefix rule.  (`examples` is a
parameter of the source function but is never read.) -/

def heuristic_suggestions (examples ignore_words : List String) : List Rule :=
  let base := [tail_number_rule, bracket_tag_rule]
  let base :=
    if ignore_words.isEmpty then base
    else
      let parts := (ignore_words.filter (fun w => w.trim != "")).map re_escape
      if parts.isEmpty then base else base ++ [ignore_words_rule parts]
  base ++ [camera_prefix_rule]

/-- The method `add_heuristics`: append each starter rule whose key is not
already among the keys of the existing rules (the `existing` key set is taken
once, before appending). -/

def add_heuristics (rules : List Rule) (exclude_examples ignore_words : List String) :
    List Rule :=
  let base := heuristic_suggestions exclude_examples ignore_words
  let existing := rules.map (·.key)
  rules ++ base.filter (fun r => !existing.contains r.key)

/-- The method `add_new_rule`: append a blank rule named after the current
rule count (`custom_{n}` / `新規ルール{n}` with `n = len(self.rules)`),
placed in the current editing scope `sc` (with `apply_genre` set to the
active genre exactly when `sc` is the GENRE scope). -/

def add_new_rule (rules : List Rule) (sc genre : String) : List Rule :=
  let n := rules.length
  rules ++ [{ key := "custom_" ++ toString n,
              name := "新規ルール" ++ toString n,
              pattern := "",
              why := "",
              enabled := true,
              scope := sc,
              apply_genre := if sc == SCOPE_GENRE then genre else "" }]

/-- The method `delete_selected_rule` (after the user confirms):
`self.rules.pop(idx)`. -/

def delete_rule (rules : List Rule) (i : Nat) : List Rule :=
  rules.eraseIdx i

/-- The keys of a rule collection, for the key-uniqueness invariant. -/

def ruleKeys (rules : List Rule) : List String :=
  rules.map (·.key)

/-! ## JSON documents

The persisted workspace and rule-pack documents are JSON values.  `JVal` is
the shape `json.load` produces (numbers restricted to integers — every
numeric field of these documents, `flags`, is an integer). -/

inductive JVal where
  | null
  | bool (b : Bool)
  | num (n : Int)
  | str (s : String)
  | arr (xs : List JVal)
  | obj (fields : List (String × JVal))

/-- Python truthiness of a JSON value (the `or` fallbacks in the loaders). -/

def jTruthy : JVal → Bool
  | .null => false
  | .bool b => b
  | .num n => n != 0
  | .str s => s != ""
  | .arr xs => !xs.isEmpty
  | .obj o => !o.isEmpty

/-- Python `dict.get(k)` on a parsed JSON object. -/

def jGet (o : List (String × JVal)) (k : String) : Option JVal :=
  (o.find? (fun p => p.1 == k)).map (·.2)

/-- Python `dict.get(k, default)`. -/

def jGetD (o : List (String × JVal)) (k : String) (d : JVal) : JVal :=
  (jGet o k).getD d

/-- Python `v or d`. -/

def jOr (v d : JVal) : JVal := if jTruthy v then v else d

/-- Python `str()` on a parsed JSON value.  On lists and dicts Python
produces the full `repr`; no document field the program reads ever holds
one there, so the model elides their contents. -/

def pyStr : JVal → String
  | .str s => s
  | .num n => toString n
  | .bool b => if b then "True" else "False"
  | .null => "None"
  | .arr _ => "[...]"
  | .obj _ => "\x7b...\x7d"

/-- Python `int()` on a parsed JSON value: `none` models the `ValueError` /
`TypeError` the conversion raises on non-numeric input, which would abort
the whole load. -/

def pyInt : JVal → Option Int
  | .num n => some n
  | .bool b => some (if b then 1 else 0)
  | .str s => s.trim.toInt?
  | _ => none

/-- Python `list()` on a parsed JSON value: a list stays itself, a string
yields its characters, a dict yields its keys; numbers and booleans raise
`TypeError` (modelled as `none`). -/

def pyList : JVal → Option (List JVal)
  | .arr xs => some xs
  | .str s => some (s.data.map (fun c => JVal.str (String.singleton c)))
  | .obj o => some (o.map (fun p => JVal.str p.1))
  | _ => none

/-- `list(... or [])` landing in a field the model types as strings: the
source keeps the elements raw, the typed model coerces them with `str`. -/

def pyStrList (v : JVal) : Option (List String) :=
  (pyList v).map (·.map pyStr)

/-- Python `d[k] = v` on a dict: replace the value of an existing key in
place, else append the new key. -/

def dictSet (o : List (String × JVal)) (k : String) (v : JVal) :
    List (String × JVal) :=
  if o.any (fun p => p.1 == k) then
    o.map (fun p => if p.1 == k then (k, v) else p)
  else o ++ [(k, v)]

/-- Whether a serialized record carries a given key (`k in d`). -/

def jHasKey (v : JVal) (k : String) : Bool :=
  match v with
  | .obj o => o.any (fun p => p.1 == k)
  | _ => false

/-! ## Rule serialization (source: `rule_to_dict`) -/

/-- The function `rule_to_dict`: the seven always-present fields, then
`genres` only when the tag list is non-empty (`if r.genres:`), `scope` only
when truthy (`if getattr(r, "scope", None):` — note `SCOPE_GLOBAL` is a
non-empty string and hence truthy), `apply_genre` and `error` only when
non-empty. -/

def rule_to_dict_fields (r : Rule) : List (String × JVal) :=
  [("key", JVal.str r.key), ("name", JVal.str r.name),
   ("pattern", JVal.str r.pattern), ("why", JVal.str r.why),
   ("enabled", JVal.bool r.enabled), ("flags", JVal.num r.flags),
   ("source", JVal.str r.source)]
  ++ (match r.genres with
      | some gs => if gs.isEmpty then [] else [("genres", JVal.arr (gs.map JVal.str))]
      | none => [])
  ++ (if r.scope == "" then [] else [("scope", JVal.str r.scope)])
  ++ (if r.apply_genre == "" then [] else [("apply_genre", JVal.str r.apply_genre)])
  ++ (if r.error == "" then [] else [("error", JVal.str r.error)])

def rule_to_dict (r : Rule) : JVal :=
  .obj (rule_to_dict_fields r)

/-! ## Workspace store (source: `save_workspace`, `load_workspace`) -/

/-- The workspace value: the fields `save_workspace` writes and
`load_workspace` restores. -/

structure Workspace where
  genre : String
  exclude_examples : List String
  keep_examples : List String
  sample_titles : List String
  ignore_scoped : IgnoreScoped
  rules : List Rule
  deriving DecidableEq

/-- Serialization of the scoped ignore-word structure (stored as the plain
dict `self.ignore_scoped`). -/

def ignore_scoped_to_jval (ig : IgnoreScoped) : JVal :=
  .obj [(SCOPE_GLOBAL, JVal.arr (ig.global.map JVal.str)),
        (SCOPE_TMP, JVal.arr (ig.tmp.map JVal.str)),
        (SCOPE_GENRE, JVal.obj (ig.genreMap.map
          (fun p => (p.1, JVal.arr (p.2.map JVal.str)))))]

/-- The method `save_workspace`: starting from the previously loaded raw
document (`data = dict(self.workspace)`, here `base`), overwrite the
workspace fields, the legacy flat `ignore_words` copy of the GLOBAL bucket,
and the serialized rules. -/

def save_workspace (base : List (String × JVal)) (w : Workspace) : JVal :=
  let d := dictSet base "genre" (.str w.genre)
  let d := dictSet d "exclude_examples" (.arr (w.exclude_examples.map .str))
  let d := dictSet d "keep_examples" (.arr (w.keep_examples.map .str))
  let d := dictSet d "sample_titles" (.arr (w.sample_titles.map .str))
  let d := dictSet d "ignore_scoped" (ignore_scoped_to_jval w.ignore_scoped)
  let d := dictSet d "ignore_words" (.arr (w.ignore_scoped.global.map .str))
  let d := dictSet d "rules" (.arr (w.rules.map rule_to_dict))
  .obj d

/-- Bucket coercion of `_ensure_scoped_structures`: a non-list bucket is
reset to `[]`; the source keeps list elements raw and the typed model
coerces them with `str`. -/

def asWordList : Option JVal → List String
  | some (.arr xs) => xs.map pyStr
  | _ => []

/-- Genre-map coercion: a non-dict mapping is reset to `{}`; each genre bucket
value is read as a word list (non-list values read as empty, the coercion
`refresh_ignore_list` applies at every read site). -/

def asGenreMap : Option JVal → List (String × List String)
  | some (.obj gm) => gm.map (fun p =>
      (p.1, match p.2 with
            | .arr xs => xs.map pyStr
            | _ => []))
  | _ => []

/-- The scoped-ignore part of `load_workspace`: take `ignore_scoped` when it
is a dict, otherwise synthesize one from the legacy flat `ignore_words`
list (GLOBAL bucket) with empty TMP and genre buckets. -/

def load_ignore_scoped (data : List (String × JVal)) : Option IgnoreScoped :=
  match jGetD data "ignore_scoped" .null with
  | .obj m =>
      some { global := asWordList (jGet m SCOPE_GLOBAL),
             tmp := asWordList (jGet m SCOPE_TMP),
             genreMap := asGenreMap (jGet m SCOPE_GENRE) }
  | _ => do
      let ws ← pyStrList (jOr (jGetD data "ignore_words" .null) (.arr []))
      return { global := ws, tmp := [], genreMap := [] }

/-- The `Rule(...)` construction shared verbatim by `load_workspace` and
`load_rules_pack`: every field defaulted through `or`, `genres` kept only
when it is a list, filtered to entries whose stripped text is non-empty.
`n` is `len(rules)`, the number of rules accepted so far (used for the
default key).  `scope` and `apply_genre` are not constructor arguments and
take the dataclass defaults. -/

def rule_from_dict (it : List (String × JVal)) (n : Nat) : Option Rule := do
  let genres :=
    match jGet it "genres" with
    | some (.arr xs) => some ((xs.map pyStr).filter (fun s => s.trim != ""))
    | _ => none
  let flags ← pyInt (jOr (jGetD it "flags" (.num 0)) (.num 0))
  return {
    key := pyStr (jOr (jGetD it "key" .null) (.str ("R_" ++ toString n))),
    name := pyStr (jOr (jGetD it "name" .null) (.str "rule")),
    pattern := pyStr (jOr (jGetD it "pattern" .null) (.str "")),
    why := pyStr (jOr (jGetD it "why" .null) (.str "")),
    enabled := (match jGet it "enabled" with
                | some v => jTruthy v
                | none => true),
    flags := flags,
    source := pyStr (jOr (jGetD it "source" .null) (.str "WORKSHOP")),
    error := pyStr (jOr (jGetD it "error" .null) (.str "")),
    genres := genres }

/-- The two extra assignments `load_workspace` performs on each restored
rule: `r.scope = str(it.get("scope") or SCOPE_GLOBAL)` and
`r.apply_genre = str(it.get("apply_genre") or "")`. -/

def ws_rule_from_dict (it : List (String × JVal)) (n : Nat) : Option Rule := do
  let r ← rule_from_dict it n
  return { r with
    scope := pyStr (jOr (jGetD it "scope" .null) (.str SCOPE_GLOBAL)),
    apply_genre := pyStr (jOr (jGetD it "apply_genre" .null) (.str "")) }

/-- The rule-collecting loop of both loaders: non-dict entries are skipped,
dict entries are parsed and appended.  A conversion error (`none` from the
parser) aborts the load, as the uncaught Python exception would. -/

def load_rules_step (parse : List (String × JVal) → Nat → Option Rule)
    (acc : List Rule) (it : JVal) : Option (List Rule) :=
  match it with
  | .obj o => do
      let r ← parse o acc.length
      return acc ++ [r]
  | _ => return acc

def load_rules_from_list (parse : List (String × JVal) → Nat → Option Rule)
    (items : List JVal) : Option (List Rule) :=
  items.foldlM (load_rules_step parse) []

/-- The per-rule normalization of `_ensure_scoped_structures`: an empty
(falsy) scope is replaced by `SCOPE_GLOBAL`. -/

def ensure_rule_scope (r : Rule) : Rule :=
  if r.scope == "" then { r with scope := SCOPE_GLOBAL } else r

/-- The method `load_workspace` on an already-parsed document: a non-dict
document is rejected (the source shows an error dialog and keeps the old
state).  Otherwise restore genre (defaulting to "未選択"), the scoped
ignore structure (with the legacy fallback), the three example/sample
lists, and the rule collection, then apply `_ensure_scoped_structures`. -/

def load_workspace (data : JVal) : Option Workspace :=
  match data with
  | .obj o => do
      let genre := pyStr (jOr (jGetD o "genre" .null) (.str "未選択"))
      let ig ← load_ignore_scoped o
      let exclude ← pyStrList (jOr (jGetD o "exclude_examples" .null) (.arr []))
      let keep ← pyStrList (jOr (jGetD o "keep_examples" .null) (.arr []))
      let sample ← pyStrList (jOr (jGetD o "sample_titles" .null) (.arr []))
      let rules ←
        match jOr (jGetD o "rules" .null) (.arr []) with
        | .arr items => load_rules_from_list ws_rule_from_dict items
        | _ => some []
      return { genre := genre,
               exclude_examples := exclude,
               keep_examples := keep,
               sample_titles := sample,
               ignore_scoped := ig,
               rules := rules.map ensure_rule_scope }
  | _ => none

/-- The method `load_rules_pack` on an already-parsed document: a dict is
unwrapped through its `rules` key (`data.get("rules") or []`), a bare list
is used directly; anything else yields the empty collection.  The rules are
rebuilt with `rule_from_dict` only — `scope` and `apply_genre` are never
read here. -/

def load_rules_pack (data : JVal) : Option (List Rule) :=
  let rules_data :=
    match data with
    | .obj o => jOr (jGetD o "rules" .null) (.arr [])
    | v => v
  match rules_data with
  | .arr items => load_rules_from_list rule_from_dict items
  | _ => some []

def c1demo_m : Matcher := fun t => t == "x1" || t == "z1"

def c1demo_r1 : Rule := { key := "a", name := "A", pattern := "p1", why := "" }

def c1demo_r2 : Rule := { key := "b", name := "B", pattern := "p2", why := "" }

def c2demo_E : RegexEngine :=
  ⟨fun p _f => if p = "(abc" then .error "missing close paren"
               else .ok (fun t => t == p)⟩

def c2demo_bad : Rule := { key := "bad", name := "BadRule", pattern := "(abc", why := "" }

def c2demo_good : Rule := { key := "good", name := "GoodRule", pattern := "abc", why := "" }

def c3demo : Rule :=
  { key := "c", name := "C", pattern := "", why := "",
    scope := SCOPE_GENRE, apply_genre := "Comics" }

def c7demo_t1 : Rule := { key := "t1", name := "T1", pattern := "", why := "", scope := SCOPE_TMP }

def c7demo_t2 : Rule := { key := "t2", name := "T2", pattern := "", why := "", scope := SCOPE_TMP }

def c7demo_t3 : Rule := { key := "t3", name := "T3", pattern := "", why := "", scope := SCOPE_TMP }

def c7demo_g1 : Rule := { key := "g1", name := "G1", pattern := "", why := "" }

def c7demo_g2 : Rule := { key := "g2", name := "G2", pattern := "", why := "" }

def c7demo_rules : List Rule :=
  [c7demo_t1, c7demo_g1, c7demo_t2, c7demo_g2, c7demo_t3]

def c7demo_ig : IgnoreScoped :=
  { global := ["g"], tmp := ["x", "y"], genreMap := [("G", ["w"])] }

def c8demo_genre : Rule :=
  { key := "p", name := "P", pattern := "", why := "",
    scope := SCOPE_GENRE, apply_genre := "G" }

def c8demo_global : Rule := { key := "q", name := "Q", pattern := "", why := "" }

def c5demo : Rule := { key := "k", name := "N", pattern := "p", why := "w" }

def c6demo : Rule := { key := "k0", name := "K0", pattern := "", why := "" }

def c10demo_doc : JVal :=
  .obj [("rules", .arr [.obj [("key", .str "k"), ("scope", .str "TMP"),
    ("apply_genre", .str "G")]])]

def c10demo_rule : Rule := { key := "k", name := "rule", pattern := "", why := "" }

/-! ## Round-trip lemmas for the workspace store -/

def RuleGood (r : Rule) : Prop :=
  r.key ≠ "" ∧ r.name ≠ "" ∧ r.source ≠ "" ∧ r.scope ≠ "" ∧
    (r.genres = none ∨
      ∃ gs, r.genres = some gs ∧ gs ≠ [] ∧ ∀ s ∈ gs, s.trim ≠ "")

def c4demo_rule_tmp : Rule :=
  { key := "k1", name := "n1", pattern := "p", why := "", scope := SCOPE_TMP }

def c4demo_rule_global : Rule :=
  { key := "k2", name := "n2", pattern := "", why := "w", enabled := false,
    flags := 10 }

def c4demo_rule_genre : Rule :=
  { key := "k3", name := "n3", pattern := "p3", why := "", error := "e",
    scope := SCOPE_GENRE, apply_genre := "G" }

def c4demo_bad : Workspace :=
  { genre := "",
    exclude_examples := ["a"], keep_examples := ["b"], sample_titles := ["t"],
    ignore_scoped := { global := ["g"], tmp := ["m"], genreMap := [("G", ["w"])] },
    rules := [c4demo_rule_tmp, c4demo_rule_global, c4demo_rule_genre] }

def c4demo_good : Workspace := { c4demo_bad with genre := "G" }

/-! ## Lemmas about the match engine -/

theorem hitStep_eq_none {ps : List (Rule × Option Matcher)} {counts : List Nat}
    {t : String} (h : firstMatchIdx ps t = none) : hitStep ps counts t = counts := by
  rw [hitStep, h]

theorem hitStep_eq_some {ps : List (Rule × Option Matcher)} {counts : List Nat}
    {t : String} {j : Nat} (h : firstMatchIdx ps t = some j) :
    hitStep ps counts t = counts.set j (counts.getD j 0 + 1) := by
  rw [hitStep, h]

theorem firstMatchIdx_lt {ps : List (Rule × Option Matcher)} {t : String} {i : Nat}
    (h : firstMatchIdx ps t = some i) : i < ps.length := by
  induction ps generalizing i with
  | nil => simp [firstMatchIdx] at h
  | cons p rest ih =>
    obtain ⟨r, c⟩ := p
    rw [firstMatchIdx] at h
    split at h
    · cases h; simp
    · match hr : firstMatchIdx rest t with
      | none => rw [hr] at h; simp at h
      | some j =>
        rw [hr] at h
        simp only [Option.map_some', Option.some.injEq] at h
        subst h
        simpa using Nat.succ_lt_succ (ih hr)

theorem firstMatchIdx_eq_some_iff {ps : List (Rule × Option Matcher)}
    {t : String} {i : Nat} :
    firstMatchIdx ps t = some i ↔
      ((∃ p, ps[i]? = some p ∧ fires p.1 p.2 t = true) ∧
       ∀ j q, j < i → ps[j]? = some q → fires q.1 q.2 t = false) := by
  induction ps generalizing i with
  | nil => simp [firstMatchIdx]
  | cons p rest ih =>
    obtain ⟨r, c⟩ := p
    rw [firstMatchIdx]
    cases i with
    | zero =>
      by_cases hf : fires r c t
      · simp [hf]
      · simp only [Bool.not_eq_true] at hf
        simp only [hf, Bool.false_eq_true, if_false]
        constructor
        · intro h
          match hr : firstMatchIdx rest t with
          | none => rw [hr] at h; simp at h
          | some j => rw [hr] at h; simp at h
        · rintro ⟨⟨q, hq, hfq⟩, -⟩
          simp only [List.getElem?_cons_zero, Option.some.injEq] at hq
          subst hq
          rw [hf] at hfq
          exact absurd hfq (by simp)
    | succ k =>
      by_cases hf : fires r c t
      · simp only [hf, if_true]
        constructor
        · intro h; simp at h
        · rintro ⟨-, hall⟩
          have h0 := hall 0 (r, c) (Nat.succ_pos k) (by simp)
          rw [hf] at h0; simp at h0
      · simp only [Bool.not_eq_true] at hf
        simp only [hf, Bool.false_eq_true, if_false]
        constructor
        · intro h
          match hr : firstMatchIdx rest t with
          | none => rw [hr] at h; simp at h
          | some j =>
            rw [hr] at h
            simp only [Option.map_some', Option.some.injEq] at h
            have hj : j = k := by omega
            subst hj
            obtain ⟨⟨q, hq, hfq⟩, hall⟩ := ih.mp hr
            refine ⟨⟨q, by simpa using hq, hfq⟩, ?_⟩
            intro j' q' hj' hq'
            cases j' with
            | zero =>
              simp only [List.getElem?_cons_zero, Option.some.injEq] at hq'
              subst hq'
              exact hf
            | succ j'' =>
              simp only [List.getElem?_cons_succ] at hq'
              exact hall j'' q' (by omega) hq'
        · rintro ⟨⟨q, hq, hfq⟩, hall⟩
          simp only [List.getElem?_cons_succ] at hq
          have hrest : firstMatchIdx rest t = some k := by
            refine ih.mpr ⟨⟨q, hq, hfq⟩, ?_⟩
            intro j' q' hj' hq'
            exact hall (j' + 1) q' (by omega) (by simpa using hq')
          rw [hrest]; rfl

theorem hitStep_length (ps : List (Rule × Option Matcher)) (counts : List Nat)
    (t : String) : (hitStep ps counts t).length = counts.length := by
  match hfm : firstMatchIdx ps t with
  | none => rw [hitStep_eq_none hfm]
  | some j => rw [hitStep_eq_some hfm]; simp

theorem foldl_hitStep_length (ps : List (Rule × Option Matcher))
    (ts : List String) (counts : List Nat) :
    (ts.foldl (hitStep ps) counts).length = counts.length := by
  induction ts generalizing counts with
  | nil => rfl
  | cons t rest ih => rw [List.foldl_cons, ih, hitStep_length]

theorem getD_set_self (l : List Nat) (j : Nat) (v : Nat) (h : j < l.length) :
    (l.set j v).getD j 0 = v := by
  simp [List.getD_eq_getElem?_getD, List.getElem?_set_self h]

theorem getD_set_ne (l : List Nat) (i j : Nat) (v : Nat) (h : i ≠ j) :
    (l.set j v).getD i 0 = l.getD i 0 := by
  simp [List.getD_eq_getElem?_getD, List.getElem?_set_ne (Ne.symm h)]

theorem foldl_hitStep_getD (ps : List (Rule × Option Matcher))
    (ts : List String) (counts : List Nat) (i : Nat)
    (hps : ps.length ≤ counts.length) :
    (ts.foldl (hitStep ps) counts).getD i 0
      = counts.getD i 0 + ts.countP (fun t => firstMatchIdx ps t == some i) := by
  induction ts generalizing counts with
  | nil => simp
  | cons t rest ih =>
    rw [List.foldl_cons, List.countP_cons]
    have hlen : ps.length ≤ (hitStep ps counts t).length := by
      rw [hitStep_length]; exact hps
    rw [ih _ hlen]
    match hfm : firstMatchIdx ps t with
    | none =>
      rw [hitStep_eq_none hfm]
      simp [hfm]
    | some j =>
      have hj : j < counts.length := lt_of_lt_of_le (firstMatchIdx_lt hfm) hps
      rw [hitStep_eq_some hfm]
      by_cases hij : i = j
      · subst hij
        rw [getD_set_self _ _ _ hj]
        simp [hfm]
        omega
      · rw [getD_set_ne _ _ _ _ hij]
        have hne : (some j == some i) = false := by
          simp; exact fun h => hij h.symm
        simp [hfm, hne]

theorem sum_set_succ (l : List Nat) (i : Nat) (h : i < l.length) :
    (l.set i (l.getD i 0 + 1)).sum = l.sum + 1 := by
  induction l generalizing i with
  | nil => simp at h
  | cons a rest ih =>
    cases i with
    | zero => simp [List.getD]; omega
    | succ k =>
      simp only [List.set_cons_succ, List.sum_cons, List.getD_cons_succ]
      have hk : k < rest.length := by simpa using h
      have := ih k hk
      omega

theorem hitStep_sum_le (ps : List (Rule × Option Matcher)) (counts : List Nat)
    (t : String) : (hitStep ps counts t).sum ≤ counts.sum + 1 := by
  match hfm : firstMatchIdx ps t with
  | none => rw [hitStep_eq_none hfm]; omega
  | some j =>
    rw [hitStep_eq_some hfm]
    by_cases hj : j < counts.length
    · rw [sum_set_succ _ _ hj]
    · rw [List.set_eq_of_length_le (by omega)]
      omega

theorem foldl_hitStep_sum_le (ps : List (Rule × Option Matcher))
    (ts : List String) (counts : List Nat) :
    (ts.foldl (hitStep ps) counts).sum ≤ counts.sum + ts.length := by
  induction ts generalizing counts with
  | nil => simp
  | cons t rest ih =>
    rw [List.foldl_cons]
    calc (rest.foldl (hitStep ps) (hitStep ps counts t)).sum
        ≤ (hitStep ps counts t).sum + rest.length := ih _
      _ ≤ counts.sum + 1 + rest.length := by
          have := hitStep_sum_le ps counts t; omega
      _ = counts.sum + (t :: rest).length := by simp; omega

theorem sum_replicate_zero (n : Nat) : (List.replicate n (0 : Nat)).sum = 0 := by
  induction n with
  | zero => rfl
  | succ k ih => simp [List.replicate_succ, ih]

/-- C1: the hit-count evaluation caps the title list at its first 3000
entries taken in order, keeps one counter per rule, and gives each rule
exactly the number of capped titles whose first firing rule (in collection
order: enabled, with a compiled matcher matching somewhere in the title)
is that rule; a title with no firing rule is counted nowhere. -/

theorem claim_C1_first_match_hit_counting (rules : List Rule)
    (compiled : List (Option Matcher)) (titles : List String)
    (hlen : compiled.length = rules.length) :
    update_rule_hits rules compiled titles
        = update_rule_hits rules compiled (titles.take 3000)
    ∧ (update_rule_hits rules compiled titles).length = rules.length
    ∧ (∀ i, i < rules.length →
        (update_rule_hits rules compiled titles).getD i 0
          = (titles.take 3000).countP
              (fun t => firstMatchIdx (rules.zip compiled) t == some i))
    ∧ (∀ t i, firstMatchIdx (rules.zip compiled) t = some i ↔
        ((∃ p, (rules.zip compiled)[i]? = some p ∧ fires p.1 p.2 t = true) ∧
         ∀ j q, j < i → (rules.zip compiled)[j]? = some q →
           fires q.1 q.2 t = false)) := by
  refine ⟨?_, ?_, ?_, fun t i => firstMatchIdx_eq_some_iff⟩
  · rw [update_rule_hits, update_rule_hits, List.take_take]
    norm_num
  · rw [update_rule_hits, foldl_hitStep_length, List.length_replicate]
  · intro i hi
    rw [update_rule_hits, foldl_hitStep_getD]
    · simp [List.getD_eq_getElem?_getD, List.getElem?_replicate_of_lt hi]
    · simp [hlen]

/-- C9: over any rule collection and title list, the hit counts sum to at
most the number of titles — each title bumps at most one counter. -/

theorem claim_C9_hits_sum_le_titles (rules : List Rule)
    (compiled : List (Option Matcher)) (titles : List String) :
    (update_rule_hits rules compiled titles).sum ≤ titles.length := by
  rw [update_rule_hits]
  calc ((titles.take 3000).foldl (hitStep (rules.zip compiled))
          (List.replicate rules.length 0)).sum
      ≤ (List.replicate rules.length 0).sum + (titles.take 3000).length :=
        foldl_hitStep_sum_le _ _ _
    _ ≤ titles.length := by
        rw [sum_replicate_zero]
        simp [List.length_take_le' 3000 titles]

/-- Witness for C1 at a concrete collection: two rules, the first with a
matcher hitting two of three titles, the second uncompiled. -/

theorem claim_C1_witness :
    update_rule_hits [c1demo_r1, c1demo_r2] [some c1demo_m, none]
        ["x1", "y", "z1"] = [2, 0]
    ∧ (update_rule_hits [c1demo_r1, c1demo_r2] [some c1demo_m, none]
        ["x1", "y", "z1"]).getD 0 0
      = (["x1", "y", "z1"].take 3000).countP
          (fun t => firstMatchIdx ([c1demo_r1, c1demo_r2].zip
            [some c1demo_m, none]) t == some 0) := by
  refine ⟨by decide, ?_⟩
  exact (claim_C1_first_match_hit_counting [c1demo_r1, c1demo_r2]
    [some c1demo_m, none] ["x1", "y", "z1"] rfl).2.2.1 0 (by decide)

/-- C2: an enabled rule with non-empty but malformed pattern text comes out
of recompilation with its error field set to the engine diagnostic and no
matcher; it stays in the collection at its position, collects zero hits on
every title list, appears in the preview error listing (its diagnostic
non-empty), and every other rule is recompiled from its own error-cleared
state exactly as it would be alone — the failure aborts nothing. -/

theorem claim_C2_compile_error_isolated (E : RegexEngine) (rules : List Rule)
    (i : Nat) (r : Rule) (e : String)
    (hi : rules[i]? = some r)
    (hen : r.enabled = true)
    (hp : r.pattern ≠ "")
    (hc : E.compile r.pattern r.flags = .error e)
    (he : e ≠ "") :
    (recompile_all E rules).1.length = rules.length
    ∧ (recompile_all E rules).2.length = rules.length
    ∧ (recompile_all E rules).1[i]? = some { r with error := e }
    ∧ (recompile_all E rules).2[i]? = some none
    ∧ (∀ titles,
        (update_rule_hits (recompile_all E rules).1 (recompile_all E rules).2
          titles).getD i 0 = 0)
    ∧ { r with error := e } ∈ preview_errors (recompile_all E rules).1
    ∧ (∀ j, j ≠ i →
        (recompile_all E rules).1[j]?
            = rules[j]?.map (fun s => (compile_rule E { s with error := "" }).1)
        ∧ (recompile_all E rules).2[j]?
            = rules[j]?.map (fun s => (compile_rule E { s with error := "" }).2)) := by
  have hcr : compile_rule E { r with error := "" } = ({ r with error := e }, none) := by
    rw [compile_rule]
    have h1 : (!({ r with error := "" } : Rule).enabled
        || ({ r with error := "" } : Rule).pattern == "") = false := by
      simp [hen, hp]
    rw [h1]
    simp only [Bool.false_eq_true, if_false]
    have h2 : E.compile ({ r with error := "" } : Rule).pattern
        ({ r with error := "" } : Rule).flags = .error e := hc
    rw [h2]
  have hfst : (recompile_all E rules).1
      = rules.map (fun s => (compile_rule E { s with error := "" }).1) := by
    rw [recompile_all]
    simp [List.map_map, Function.comp]
  have hsnd : (recompile_all E rules).2
      = rules.map (fun s => (compile_rule E { s with error := "" }).2) := by
    rw [recompile_all]
    simp [List.map_map, Function.comp]
  have hlen1 : (recompile_all E rules).1.length = rules.length := by
    rw [hfst, List.length_map]
  have hlen2 : (recompile_all E rules).2.length = rules.length := by
    rw [hsnd, List.length_map]
  have hri : (recompile_all E rules).1[i]? = some { r with error := e } := by
    rw [hfst, List.getElem?_map, hi]
    simp [hcr]
  have hci : (recompile_all E rules).2[i]? = some none := by
    rw [hsnd, List.getElem?_map, hi]
    simp [hcr]
  have hilt : i < rules.length := by
    have := List.getElem?_eq_some.mp hi
    exact this.1
  refine ⟨hlen1, hlen2, hri, hci, ?_, ?_, ?_⟩
  · intro titles
    rw [update_rule_hits, foldl_hitStep_getD]
    · rw [List.getD_eq_getElem?_getD,
        List.getElem?_replicate_of_lt (hlen1 ▸ hilt)]
      simp only [Option.getD_some, Nat.zero_add]
      rw [List.countP_eq_zero]
      intro t _
      simp only [beq_iff_eq]
      intro hfm
      obtain ⟨⟨p, hp', hfire⟩, -⟩ := firstMatchIdx_eq_some_iff.mp hfm
      obtain ⟨hp1, hp2⟩ := List.getElem?_zip_eq_some.mp hp'
      rw [hci] at hp2
      injection hp2 with hp2
      rw [fires.eq_def, ← hp2] at hfire
      simp at hfire
    · simp [hlen1, hlen2]
  · rw [preview_errors, List.mem_filter]
    refine ⟨List.getElem?_mem hri, ?_⟩
    simpa using he
  · intro j hj
    constructor
    · rw [hfst, List.getElem?_map]
    · rw [hsnd, List.getElem?_map]

/-- Witness for C2: a two-rule collection whose first rule has the
malformed pattern `(abc`; the engine rejects it with a non-empty
diagnostic, the rule scores zero hits and lands in the error listing. -/

theorem claim_C2_witness :
    (recompile_all c2demo_E [c2demo_bad, c2demo_good]).1[0]?
        = some { c2demo_bad with error := "missing close paren" }
    ∧ (recompile_all c2demo_E [c2demo_bad, c2demo_good]).2[0]? = some none
    ∧ (update_rule_hits (recompile_all c2demo_E [c2demo_bad, c2demo_good]).1
        (recompile_all c2demo_E [c2demo_bad, c2demo_good]).2
        ["abc", "zzz"]).getD 0 0 = 0
    ∧ { c2demo_bad with error := "missing close paren" }
        ∈ preview_errors (recompile_all c2demo_E [c2demo_bad, c2demo_good]).1 := by
  have h := claim_C2_compile_error_isolated c2demo_E [c2demo_bad, c2demo_good]
    0 c2demo_bad "missing close paren" rfl rfl (by decide) rfl (by decide)
  exact ⟨h.2.2.1, h.2.2.2.1, h.2.2.2.2.1 ["abc", "zzz"], h.2.2.2.2.2.1⟩

/-- C3: over the three selectable contexts and the three scope tags, a rule
is visible exactly under the context matching its scope, with the genre
context additionally requiring the applicable genre of the rule to equal the
selected genre. -/

theorem claim_C3_scope_visibility (r : Rule) (ctx g : String)
    (hctx : ctx = SCOPE_TMP ∨ ctx = SCOPE_GLOBAL ∨ ctx = SCOPE_GENRE)
    (hr : r.scope = SCOPE_TMP ∨ r.scope = SCOPE_GLOBAL ∨ r.scope = SCOPE_GENRE) :
    visible ctx g r = true ↔
      ((ctx = SCOPE_TMP ∧ r.scope = SCOPE_TMP)
       ∨ (ctx = SCOPE_GLOBAL ∧ r.scope = SCOPE_GLOBAL)
       ∨ (ctx = SCOPE_GENRE ∧ r.scope = SCOPE_GENRE ∧ r.apply_genre = g)) := by
  have hTG : SCOPE_TMP ≠ SCOPE_GLOBAL := by decide
  have hTGe : SCOPE_TMP ≠ SCOPE_GENRE := by decide
  have hGGe : SCOPE_GLOBAL ≠ SCOPE_GENRE := by decide
  have hne : (r.scope == "") = false := by
    rcases hr with h | h | h <;> rw [h] <;> decide
  rcases hctx with hc | hc | hc <;> subst hc <;>
    simp [visible, hne, beq_iff_eq, hTG, hTGe, hGGe, hTG.symm, hTGe.symm,
      hGGe.symm, SCOPE_TMP, SCOPE_GLOBAL, SCOPE_GENRE]

/-- Witness for C3: a GENRE-scoped rule tagged "Comics" is visible exactly
under the (GENRE, "Comics") context. -/

theorem claim_C3_witness :
    visible SCOPE_GENRE "Comics" c3demo = true
    ∧ visible SCOPE_GENRE "Novels" c3demo = false
    ∧ visible SCOPE_TMP "Comics" c3demo = false
    ∧ visible SCOPE_GLOBAL "Comics" c3demo = false := by
  refine ⟨?_, by decide, by decide, by decide⟩
  exact (claim_C3_scope_visibility c3demo SCOPE_GENRE "Comics"
      (Or.inr (Or.inr rfl)) (Or.inr (Or.inr rfl))).mpr
    (Or.inr (Or.inr ⟨rfl, rfl, rfl⟩))

/-- C7: clearing the temporary scope empties exactly the TMP ignore-word
bucket and keeps the GLOBAL bucket and genre mapping; the surviving rules
are exactly those not TMP-scoped, as a sublist (hence in their original
relative order) of the original collection. -/

theorem claim_C7_clear_tmp_scope (rules : List Rule) (ig : IgnoreScoped) :
    (clear_tmp_scope rules ig).2.tmp = []
    ∧ (clear_tmp_scope rules ig).2.global = ig.global
    ∧ (clear_tmp_scope rules ig).2.genreMap = ig.genreMap
    ∧ (clear_tmp_scope rules ig).1.Sublist rules
    ∧ (∀ r ∈ (clear_tmp_scope rules ig).1, r.scope ≠ SCOPE_TMP)
    ∧ (∀ r ∈ rules, r.scope ≠ SCOPE_TMP → r ∈ (clear_tmp_scope rules ig).1) := by
  refine ⟨rfl, rfl, rfl, List.filter_sublist _, ?_, ?_⟩
  · intro r hr
    have := List.of_mem_filter hr
    simpa using this
  · intro r hr hs
    exact List.mem_filter.mpr ⟨hr, by simpa using hs⟩

/-- Witness for C7: with 3 TMP rules and 2 GLOBAL rules interleaved,
clearing leaves exactly the 2 GLOBAL rules in order, empties the TMP
bucket, and keeps the GLOBAL bucket and genre mapping. -/

theorem claim_C7_witness :
    (clear_tmp_scope c7demo_rules c7demo_ig).1 = [c7demo_g1, c7demo_g2]
    ∧ (clear_tmp_scope c7demo_rules c7demo_ig).2
        = { global := ["g"], tmp := [], genreMap := [("G", ["w"])] }
    ∧ (clear_tmp_scope c7demo_rules c7demo_ig).2.global = c7demo_ig.global :=
  ⟨by decide, by decide, (claim_C7_clear_tmp_scope c7demo_rules c7demo_ig).2.1⟩

theorem set_of_getElem?_eq {α : Type} {l : List α} {i : Nat} {a : α}
    (h : l[i]? = some a) : l.set i a = l := by
  induction l generalizing i with
  | nil => simp at h
  | cons x xs ih =>
    cases i with
    | zero =>
      simp only [List.getElem?_cons_zero, Option.some.injEq] at h
      simp [h]
    | succ k =>
      simp only [List.getElem?_cons_succ] at h
      simp [ih h]

/-- C8: promoting the rule at a selected index to GLOBAL sets its scope to
GLOBAL and clears its applicable genre whatever they were, touches no other
rule, and is the identity on a rule already GLOBAL with empty genre. -/

theorem claim_C8_promote_to_global (rules : List Rule) (i : Nat) (r : Rule)
    (hi : rules[i]? = some r) :
    (promote_selected_rule_to_global rules i)[i]?
        = some { r with scope := SCOPE_GLOBAL, apply_genre := "" }
    ∧ (∀ j, j ≠ i → (promote_selected_rule_to_global rules i)[j]? = rules[j]?)
    ∧ (r.scope = SCOPE_GLOBAL → r.apply_genre = "" →
        promote_selected_rule_to_global rules i = rules) := by
  have hlt : i < rules.length := (List.getElem?_eq_some.mp hi).1
  rw [promote_selected_rule_to_global, hi]
  refine ⟨?_, ?_, ?_⟩
  · rw [List.getElem?_set_self (by simpa using hlt)]
    rfl
  · intro j hj
    exact List.getElem?_set_ne (Ne.symm hj)
  · intro h1 h2
    have hid : promote_rule_to_global r = r := by
      cases r
      simp_all [promote_rule_to_global]
    show rules.set i (promote_rule_to_global r) = rules
    rw [hid]
    exact set_of_getElem?_eq hi

/-- Witness for C8: promoting a GENRE-scoped rule rewrites it to GLOBAL
with empty genre; promoting an already-GLOBAL rule changes nothing. -/

theorem claim_C8_witness :
    (promote_selected_rule_to_global [c8demo_genre, c8demo_global] 0)[0]?
        = some { c8demo_genre with scope := SCOPE_GLOBAL, apply_genre := "" }
    ∧ promote_selected_rule_to_global [c8demo_global] 0 = [c8demo_global] := by
  refine ⟨(claim_C8_promote_to_global [c8demo_genre, c8demo_global] 0
    c8demo_genre rfl).1, ?_⟩
  exact (claim_C8_promote_to_global [c8demo_global] 0 c8demo_global rfl).2.2 rfl rfl

/-- C5 counterexample: a rule with no genre tags, the default GLOBAL scope,
empty applicable genre and empty error still serializes WITH a `scope` key
(`SCOPE_GLOBAL` is a non-empty, hence truthy, string), contradicting the
claim that such a record contains no scope key. -/

theorem claim_C5_counterexample :
    c5demo.genres = none ∧ c5demo.scope = SCOPE_GLOBAL
    ∧ c5demo.apply_genre = "" ∧ c5demo.error = ""
    ∧ jHasKey (rule_to_dict c5demo) "scope" = true := by decide

/-- C5 amended: serialization omits `genres` exactly when the tag list is
absent or empty, and omits `apply_genre` and `error` exactly when empty;
but `scope` is omitted exactly when it is the empty string — a rule with
the default GLOBAL scope keeps an explicit `scope` key.  The seven core
fields are always present. -/

theorem claim_C5_export_field_omission (r : Rule) :
    jHasKey (rule_to_dict r) "genres"
        = (match r.genres with
           | some gs => !gs.isEmpty
           | none => false)
    ∧ jHasKey (rule_to_dict r) "scope" = !(r.scope == "")
    ∧ jHasKey (rule_to_dict r) "apply_genre" = !(r.apply_genre == "")
    ∧ jHasKey (rule_to_dict r) "error" = !(r.error == "")
    ∧ jHasKey (rule_to_dict r) "key" = true
    ∧ jHasKey (rule_to_dict r) "name" = true
    ∧ jHasKey (rule_to_dict r) "pattern" = true
    ∧ jHasKey (rule_to_dict r) "why" = true
    ∧ jHasKey (rule_to_dict r) "enabled" = true
    ∧ jHasKey (rule_to_dict r) "flags" = true
    ∧ jHasKey (rule_to_dict r) "source" = true := by
  cases hg : r.genres with
  | none =>
    cases hs : (r.scope == "") <;> cases ha : (r.apply_genre == "") <;>
      cases he : (r.error == "") <;>
      simp [jHasKey, rule_to_dict, rule_to_dict_fields, hg, hs, ha, he, List.any_append]
  | some gs =>
    cases hgs : gs.isEmpty <;> cases hs : (r.scope == "") <;>
      cases ha : (r.apply_genre == "") <;> cases he : (r.error == "") <;>
      simp [jHasKey, rule_to_dict, rule_to_dict_fields, hg, hgs, hs, ha, he, List.any_append]

/-- C6 counterexample: after adding two blank rules, deleting the first and
adding another, the blank-rule key counter `custom_{len(rules)}` collides —
the reachable collection holds two rules keyed `custom_1`. -/

theorem claim_C6_counterexample :
    ¬ (ruleKeys (add_new_rule (delete_rule
        (add_new_rule (add_new_rule [] SCOPE_TMP "") SCOPE_TMP "") 0)
        SCOPE_TMP "")).Nodup := by decide

/-- C6 amended: key uniqueness is preserved by the starter-heuristics
generator and by `add_heuristics`, by deletion and by promotion, and by
adding a blank rule whenever its generated key `custom_{len(rules)}` is
still fresh — but that freshness can fail after deletions (and a loaded
document may itself carry duplicate keys), so uniqueness is not an
invariant of every reachable collection. -/

theorem claim_C6_key_uniqueness_amended :
    (∀ ex ig, (ruleKeys (heuristic_suggestions ex ig)).Nodup)
    ∧ (∀ rules ex ig, (ruleKeys rules).Nodup →
        (ruleKeys (add_heuristics rules ex ig)).Nodup)
    ∧ (∀ rules sc g, (ruleKeys rules).Nodup →
        ("custom_" ++ toString rules.length) ∉ ruleKeys rules →
        (ruleKeys (add_new_rule rules sc g)).Nodup)
    ∧ (∀ rules i, (ruleKeys rules).Nodup →
        (ruleKeys (delete_rule rules i)).Nodup)
    ∧ (∀ rules i, (ruleKeys rules).Nodup →
        (ruleKeys (promote_selected_rule_to_global rules i)).Nodup) := by
  have hheur : ∀ ex ig, (ruleKeys (heuristic_suggestions ex ig)).Nodup := by
    intro ex ig
    simp only [heuristic_suggestions]
    split_ifs <;>
      simp [ruleKeys, tail_number_rule, bracket_tag_rule, camera_prefix_rule,
        ignore_words_rule]
  refine ⟨hheur, ?_, ?_, ?_, ?_⟩
  · intro rules ex ig h
    simp only [add_heuristics]
    rw [ruleKeys, List.map_append, List.nodup_append]
    refine ⟨h, ?_, ?_⟩
    · exact (hheur ex ig).sublist
        (List.Sublist.map _ (List.filter_sublist _))
    · intro k hk1 hk2
      obtain ⟨r, hr, hrk⟩ := List.mem_map.mp hk2
      obtain ⟨-, hp⟩ := List.mem_filter.mp hr
      simp only [Bool.not_eq_eq_eq_not, Bool.not_true] at hp
      rw [List.contains_eq_any_beq] at hp
      have : r.key ∈ rules.map (·.key) := hrk ▸ hk1
      obtain ⟨k', hk', hbeq⟩ := List.mem_map.mp this
      have : (rules.map (·.key)).any (r.key == ·) = true := by
        refine List.any_eq_true.mpr ⟨r.key, ?_, by simp⟩
        exact hrk ▸ hk1
      rw [this] at hp
      simp at hp
  · intro rules sc g h hfresh
    rw [add_new_rule]
    rw [ruleKeys, List.map_append, List.nodup_append]
    refine ⟨h, by simp, ?_⟩
    intro k hk1 hk2
    simp only [List.map_cons, List.map_nil, List.mem_singleton] at hk2
    subst hk2
    exact hfresh hk1
  · intro rules i h
    exact h.sublist (List.Sublist.map _ (List.eraseIdx_sublist rules i))
  · intro rules i h
    rw [promote_selected_rule_to_global]
    match hi : rules[i]? with
    | none => exact h
    | some r =>
      have hkey : (promote_rule_to_global r).key = r.key := rfl
      rw [ruleKeys, List.map_set, hkey]
      have : (rules.map (·.key))[i]? = some r.key := by
        rw [List.getElem?_map, hi]; rfl
      rw [set_of_getElem?_eq this]
      exact h

/-- Witness for C6 (amended): the preserved-uniqueness conjuncts applied at
concrete inputs. -/

theorem claim_C6_witness :
    (ruleKeys (heuristic_suggestions ["e"] ["w"])).Nodup
    ∧ (ruleKeys (add_heuristics [c6demo] ["e"] ["w"])).Nodup
    ∧ (ruleKeys (add_new_rule [c6demo] SCOPE_TMP "")).Nodup
    ∧ (ruleKeys (delete_rule [c6demo] 0)).Nodup
    ∧ (ruleKeys (promote_selected_rule_to_global [c6demo] 0)).Nodup :=
  ⟨claim_C6_key_uniqueness_amended.1 ["e"] ["w"],
   claim_C6_key_uniqueness_amended.2.1 [c6demo] ["e"] ["w"] (by decide),
   claim_C6_key_uniqueness_amended.2.2.1 [c6demo] SCOPE_TMP "" (by decide)
     (by decide),
   claim_C6_key_uniqueness_amended.2.2.2.1 [c6demo] 0 (by decide),
   claim_C6_key_uniqueness_amended.2.2.2.2 [c6demo] 0 (by decide)⟩

theorem rule_from_dict_default_scope {it : List (String × JVal)} {n : Nat}
    {r : Rule} (h : rule_from_dict it n = some r) :
    r.scope = SCOPE_GLOBAL ∧ r.apply_genre = "" := by
  rw [rule_from_dict] at h
  cases hf : pyInt (jOr (jGetD it "flags" (.num 0)) (.num 0)) with
  | none => rw [hf] at h; simp at h
  | some fl =>
    rw [hf] at h
    simp only [Option.pure_def, Option.bind_eq_bind, Option.some_bind,
      Option.some.injEq] at h
    subst h
    exact ⟨rfl, rfl⟩

theorem load_rules_step_obj (parse : List (String × JVal) → Nat → Option Rule)
    (acc : List Rule) (o : List (String × JVal)) :
    load_rules_step parse acc (.obj o)
      = (parse o acc.length).bind (fun r => some (acc ++ [r])) := rfl

theorem load_rules_step_forall {P : Rule → Prop}
    {parse : List (String × JVal) → Nat → Option Rule}
    (hparse : ∀ o n r, parse o n = some r → P r)
    {acc : List Rule} {it : JVal} {acc' : List Rule}
    (h : load_rules_step parse acc it = some acc')
    (hacc : ∀ r ∈ acc, P r) : ∀ r ∈ acc', P r := by
  cases it with
  | obj o =>
    rw [load_rules_step_obj] at h
    cases hp : parse o acc.length with
    | none => rw [hp] at h; simp at h
    | some r =>
      rw [hp] at h
      simp only [Option.some_bind, Option.some.injEq] at h
      subst h
      intro r' hr'
      rcases List.mem_append.mp hr' with hmem | hmem
      · exact hacc r' hmem
      · rw [List.mem_singleton.mp hmem]
        exact hparse o acc.length r hp
  | null => exact (Option.some.inj h) ▸ hacc
  | bool b => exact (Option.some.inj h) ▸ hacc
  | num m => exact (Option.some.inj h) ▸ hacc
  | str s => exact (Option.some.inj h) ▸ hacc
  | arr xs => exact (Option.some.inj h) ▸ hacc

theorem foldlM_load_rules_forall {P : Rule → Prop}
    {parse : List (String × JVal) → Nat → Option Rule}
    (hparse : ∀ o n r, parse o n = some r → P r) :
    ∀ (items : List JVal) (acc rs : List Rule),
      items.foldlM (load_rules_step parse) acc = some rs →
      (∀ r ∈ acc, P r) → ∀ r ∈ rs, P r := by
  intro items
  induction items with
  | nil =>
    intro acc rs h hacc
    simp only [List.foldlM_nil] at h
    cases h
    exact hacc
  | cons it rest ih =>
    intro acc rs h hacc
    rw [List.foldlM_cons] at h
    cases hs : load_rules_step parse acc it with
    | none => rw [hs] at h; simp at h
    | some acc' =>
      rw [hs] at h
      simp only [Option.pure_def, Option.bind_eq_bind, Option.some_bind] at h
      exact ih acc' rs h (load_rules_step_forall hparse hs hacc)

theorem claim_C10_pack_loader_ignores_scope (doc : JVal) (rs : List Rule)
    (h : load_rules_pack doc = some rs) :
    (∀ r ∈ rs, r.scope = SCOPE_GLOBAL ∧ r.apply_genre = "")
    ∧ (∀ it n r s, jGet it "scope" = some (.str s) → s ≠ "" →
        ws_rule_from_dict it n = some r → r.scope = s) := by
  constructor
  · have key : ∀ (items : List JVal) (rs' : List Rule),
        load_rules_from_list rule_from_dict items = some rs' →
        ∀ r ∈ rs', r.scope = SCOPE_GLOBAL ∧ r.apply_genre = "" := by
      intro items rs' hh
      rw [load_rules_from_list] at hh
      exact foldlM_load_rules_forall
        (fun o n r hp => rule_from_dict_default_scope hp) items [] rs' hh
        (by intro r hr; cases hr)
    cases doc with
    | obj o =>
      have h2 : (match jOr (jGetD o "rules" JVal.null) (JVal.arr []) with
          | JVal.arr items => load_rules_from_list rule_from_dict items
          | _ => some ([] : List Rule)) = some rs := h
      cases hrd : jOr (jGetD o "rules" JVal.null) (JVal.arr []) with
      | arr items => rw [hrd] at h2; exact key items rs h2
      | null => rw [hrd] at h2; cases Option.some.inj h2; intro r hr; cases hr
      | bool b => rw [hrd] at h2; cases Option.some.inj h2; intro r hr; cases hr
      | num m => rw [hrd] at h2; cases Option.some.inj h2; intro r hr; cases hr
      | str s => rw [hrd] at h2; cases Option.some.inj h2; intro r hr; cases hr
      | obj o2 => rw [hrd] at h2; cases Option.some.inj h2; intro r hr; cases hr
    | arr items => exact key items rs h
    | null => cases Option.some.inj h; intro r hr; cases hr
    | bool b => cases Option.some.inj h; intro r hr; cases hr
    | num m => cases Option.some.inj h; intro r hr; cases hr
    | str s => cases Option.some.inj h; intro r hr; cases hr
  · intro it n r s hscope hne hws
    rw [ws_rule_from_dict] at hws
    cases hrf : rule_from_dict it n with
    | none => rw [hrf] at hws; simp at hws
    | some r0 =>
      rw [hrf] at hws
      simp only [Option.pure_def, Option.bind_eq_bind, Option.some_bind,
        Option.some.injEq] at hws
      subst hws
      have hgd : jGetD it "scope" JVal.null = .str s := by
        rw [jGetD, hscope]; rfl
      show pyStr (jOr (jGetD it "scope" JVal.null) (.str SCOPE_GLOBAL)) = s
      rw [hgd]
      have hts : jTruthy (.str s) = true := by simpa [jTruthy] using hne
      simp [jOr, hts, pyStr]

/-- Witness for C10: a pack document whose only record carries
`scope = "TMP"` and `apply_genre = "G"` still loads as a GLOBAL-scoped rule
with empty genre; the workspace parser run on the same record keeps TMP. -/

theorem claim_C10_witness :
    load_rules_pack c10demo_doc = some [c10demo_rule]
    ∧ c10demo_rule.scope = SCOPE_GLOBAL
    ∧ c10demo_rule.apply_genre = ""
    ∧ (ws_rule_from_dict [("key", .str "k"), ("scope", .str "TMP"),
        ("apply_genre", .str "G")] 0).map (·.scope) = some "TMP" := by
  refine ⟨by decide, ?_, ?_, by decide⟩
  · exact ((claim_C10_pack_loader_ignores_scope c10demo_doc [c10demo_rule]
      (by decide)).1 c10demo_rule (by simp)).1
  · exact ((claim_C10_pack_loader_ignores_scope c10demo_doc [c10demo_rule]
      (by decide)).1 c10demo_rule (by simp)).2

theorem map_pyStr_str (l : List String) : (l.map JVal.str).map pyStr = l := by
  induction l with
  | nil => rfl
  | cons a rest ih => simp [pyStr, ih]

theorem pyStr_jOr_str_empty (s : String) : pyStr (jOr (.str s) (.str "")) = s := by
  by_cases h : s = "" <;> simp [jOr, jTruthy, pyStr, h]

theorem pyStr_jOr_str_ne {s : String} (d : String) (h : s ≠ "") :
    pyStr (jOr (.str s) (.str d)) = s := by
  simp [jOr, jTruthy, pyStr, h]

theorem pyInt_jOr_num (m : Int) : pyInt (jOr (.num m) (.num 0)) = some m := by
  by_cases h : m = 0 <;> simp [jOr, jTruthy, pyInt, h]

theorem ws_rule_from_dict_roundtrip (r : Rule) (n : Nat) (h : RuleGood r) :
    ws_rule_from_dict (rule_to_dict_fields r) n = some r := by
  obtain ⟨hk, hn, hsrc, hsc, hgen⟩ := h
  have hscb : (r.scope == "") = false := by simpa using hsc
  have hFkey : jGet (rule_to_dict_fields r) "key" = some (.str r.key) := rfl
  have hFname : jGet (rule_to_dict_fields r) "name" = some (.str r.name) := rfl
  have hFpattern : jGet (rule_to_dict_fields r) "pattern" = some (.str r.pattern) := rfl
  have hFwhy : jGet (rule_to_dict_fields r) "why" = some (.str r.why) := rfl
  have hFenabled : jGet (rule_to_dict_fields r) "enabled" = some (.bool r.enabled) := rfl
  have hFflags : jGet (rule_to_dict_fields r) "flags" = some (.num r.flags) := rfl
  have hFsource : jGet (rule_to_dict_fields r) "source" = some (.str r.source) := rfl
  rcases hgen with hgnone | ⟨gs, hgsome, hgsne, hgall⟩
  · have hFgenres : jGet (rule_to_dict_fields r) "genres" = none := by
      cases hag : (r.apply_genre == "") <;> cases her : (r.error == "") <;>
        simp [jGet, rule_to_dict_fields, hgnone, hscb, hag, her]
    have hFscope : jGet (rule_to_dict_fields r) "scope" = some (.str r.scope) := by
      cases hag : (r.apply_genre == "") <;> cases her : (r.error == "") <;>
        simp [jGet, rule_to_dict_fields, hgnone, hscb, hag, her]
    have hFapply : jGet (rule_to_dict_fields r) "apply_genre"
        = (if r.apply_genre = "" then none else some (.str r.apply_genre)) := by
      by_cases hag : r.apply_genre = "" <;> cases her : (r.error == "") <;>
        simp [jGet, rule_to_dict_fields, hgnone, hscb, hag, her]
    have hFerror : jGet (rule_to_dict_fields r) "error"
        = (if r.error = "" then none else some (.str r.error)) := by
      cases hag : (r.apply_genre == "") <;> by_cases her : r.error = "" <;>
        simp [jGet, rule_to_dict_fields, hgnone, hscb, hag, her]
    rw [ws_rule_from_dict, rule_from_dict]
    rw [hFgenres]
    simp only [jGetD, hFkey, hFname, hFpattern, hFwhy, hFenabled, hFflags,
      hFsource, hFscope, hFapply, hFerror, Option.getD_some, pyInt_jOr_num,
      Option.pure_def, Option.bind_eq_bind, Option.some_bind,
      Option.some.injEq]
    by_cases hag : r.apply_genre = "" <;> by_cases her : r.error = "" <;>
      cases hr0 : r <;>
      simp_all [pyStr_jOr_str_empty, pyStr_jOr_str_ne, jOr, jTruthy, pyStr,
        apply_ite pyStr] <;>
      refine ⟨?_, ?_⟩ <;> split_ifs with h2 <;> simp [h2]
  · have hgsb : gs.isEmpty = false := by
      cases gs with
      | nil => exact absurd rfl hgsne
      | cons a rest => rfl
    have hmap : (gs.map JVal.str).map pyStr = gs := map_pyStr_str gs
    have hfilter : gs.filter (fun s => s.trim != "") = gs :=
      List.filter_eq_self.mpr (fun s hs => by simpa using hgall s hs)
    have hFgenres : jGet (rule_to_dict_fields r) "genres"
        = some (.arr (gs.map JVal.str)) := by
      cases hag : (r.apply_genre == "") <;> cases her : (r.error == "") <;>
        simp [jGet, rule_to_dict_fields, hgsome, hgsb, hscb, hag, her]
    have hFscope : jGet (rule_to_dict_fields r) "scope" = some (.str r.scope) := by
      cases hag : (r.apply_genre == "") <;> cases her : (r.error == "") <;>
        simp [jGet, rule_to_dict_fields, hgsome, hgsb, hscb, hag, her]
    have hFapply : jGet (rule_to_dict_fields r) "apply_genre"
        = (if r.apply_genre = "" then none else some (.str r.apply_genre)) := by
      by_cases hag : r.apply_genre = "" <;> cases her : (r.error == "") <;>
        simp [jGet, rule_to_dict_fields, hgsome, hgsb, hscb, hag, her]
    have hFerror : jGet (rule_to_dict_fields r) "error"
        = (if r.error = "" then none else some (.str r.error)) := by
      cases hag : (r.apply_genre == "") <;> by_cases her : r.error = "" <;>
        simp [jGet, rule_to_dict_fields, hgsome, hgsb, hscb, hag, her]
    rw [ws_rule_from_dict, rule_from_dict]
    rw [hFgenres]
    simp only [jGetD, hFkey, hFname, hFpattern, hFwhy, hFenabled, hFflags,
      hFsource, hFscope, hFapply, hFerror, Option.getD_some, pyInt_jOr_num,
      Option.pure_def, Option.bind_eq_bind, Option.some_bind,
      Option.some.injEq, hmap, hfilter]
    by_cases hag : r.apply_genre = "" <;> by_cases her : r.error = "" <;>
      cases hr0 : r <;>
      simp_all [pyStr_jOr_str_empty, pyStr_jOr_str_ne, jOr, jTruthy, pyStr,
        apply_ite pyStr] <;>
      refine ⟨?_, ?_⟩ <;> split_ifs with h2 <;> simp [h2]

theorem foldlM_load_saved_rules (rs : List Rule) :
    ∀ acc : List Rule, (∀ r ∈ rs, RuleGood r) →
      (rs.map rule_to_dict).foldlM (load_rules_step ws_rule_from_dict) acc
        = some (acc ++ rs) := by
  induction rs with
  | nil => intro acc h; simp
  | cons r rest ih =>
    intro acc h
    rw [List.map_cons, List.foldlM_cons]
    have hstep : load_rules_step ws_rule_from_dict acc (rule_to_dict r)
        = some (acc ++ [r]) := by
      rw [show rule_to_dict r = JVal.obj (rule_to_dict_fields r) from rfl,
        load_rules_step_obj,
        ws_rule_from_dict_roundtrip r acc.length (h r (by simp))]
      rfl
    rw [hstep]
    simp only [Option.pure_def, Option.bind_eq_bind, Option.some_bind]
    rw [ih (acc ++ [r]) (fun r' hr' => h r' (by simp [hr']))]
    simp

theorem find?_map_set_self (o : List (String × JVal)) (k : String) (v : JVal)
    (hany : (o.any fun p => p.1 == k) = true) :
    (o.map (fun p => if p.1 == k then (k, v) else p)).find? (fun p => p.1 == k)
      = some (k, v) := by
  induction o with
  | nil => simp at hany
  | cons p rest ih =>
    cases hpk : (p.1 == k) with
    | true =>
      simp only [List.map_cons, hpk, if_true]
      exact List.find?_cons_of_pos _ (by simp)
    | false =>
      have hany' : (rest.any fun p => p.1 == k) = true := by
        simpa [List.any_cons, hpk] using hany
      simp only [List.map_cons, hpk, Bool.false_eq_true, if_false]
      rw [List.find?_cons_of_neg _ (by simp [hpk])]
      exact ih hany'

theorem find?_map_set_ne (o : List (String × JVal)) (k k' : String) (v : JVal)
    (h : k' ≠ k) :
    (o.map (fun p => if p.1 == k then (k, v) else p)).find? (fun p => p.1 == k')
      = o.find? (fun p => p.1 == k') := by
  induction o with
  | nil => rfl
  | cons p rest ih =>
    cases hpk : (p.1 == k) with
    | true =>
      have hp1 : p.1 = k := by simpa using hpk
      simp only [List.map_cons, hpk, if_true]
      rw [List.find?_cons_of_neg _ (by simp [Ne.symm h]),
        List.find?_cons_of_neg _ (by simp [hp1, Ne.symm h])]
      exact ih
    | false =>
      cases hpq : (p.1 == k') with
      | true =>
        simp only [List.map_cons, hpk, Bool.false_eq_true, if_false]
        rw [List.find?_cons_of_pos _ (by simp [hpq]),
          List.find?_cons_of_pos _ (by simp [hpq])]
      | false =>
        simp only [List.map_cons, hpk, Bool.false_eq_true, if_false]
        rw [List.find?_cons_of_neg _ (by simp [hpq]),
          List.find?_cons_of_neg _ (by simp [hpq])]
        exact ih

theorem jGet_dictSet_self (o : List (String × JVal)) (k : String) (v : JVal) :
    jGet (dictSet o k v) k = some v := by
  rw [jGet, dictSet]
  split
  · rename_i hany
    rw [find?_map_set_self o k v hany]
    rfl
  · rename_i hany
    rw [List.find?_append]
    have hnone : o.find? (fun p => p.1 == k) = none := by
      rw [List.find?_eq_none]
      intro p hp hpk
      exact hany (List.any_eq_true.mpr ⟨p, hp, hpk⟩)
    rw [hnone]
    simp

theorem jGet_dictSet_ne (o : List (String × JVal)) (k k' : String) (v : JVal)
    (h : k' ≠ k) : jGet (dictSet o k v) k' = jGet o k' := by
  rw [jGet, jGet, dictSet]
  split
  · rw [find?_map_set_ne o k k' v h]
  · rw [List.find?_append]
    rw [show ([(k, v)].find? (fun p => p.1 == k')) = none from by
      simp [Ne.symm h]]
    cases o.find? (fun p => p.1 == k') <;> rfl

theorem pyStrList_saved (xs : List String) :
    pyStrList (jOr (.arr (xs.map JVal.str)) (.arr [])) = some xs := by
  cases xs with
  | nil => rfl
  | cons a rest =>
    rw [jOr, show jTruthy (.arr ((a :: rest).map JVal.str)) = true from rfl,
      if_pos rfl]
    rw [pyStrList, pyList]
    show some (((a :: rest).map JVal.str).map pyStr) = some (a :: rest)
    rw [map_pyStr_str]

theorem asGenreMap_saved (gm : List (String × List String)) :
    asGenreMap (some (.obj (gm.map
      (fun p => (p.1, JVal.arr (p.2.map JVal.str)))))) = gm := by
  rw [asGenreMap]
  induction gm with
  | nil => rfl
  | cons p rest ih =>
    simp only [List.map_cons, List.map_map] at ih ⊢
    rw [ih]
    have hp : List.map (pyStr ∘ JVal.str) p.2 = p.2 := by
      rw [← List.map_map]
      exact map_pyStr_str p.2
    simp [hp]

theorem load_ignore_scoped_saved (o : List (String × JVal)) (ig : IgnoreScoped)
    (h : jGet o "ignore_scoped" = some (ignore_scoped_to_jval ig)) :
    load_ignore_scoped o = some ig := by
  rw [load_ignore_scoped, jGetD, h]
  rw [ignore_scoped_to_jval]
  simp only [Option.getD_some]
  have hglobal : jGet [(SCOPE_GLOBAL, JVal.arr (ig.global.map JVal.str)),
      (SCOPE_TMP, JVal.arr (ig.tmp.map JVal.str)),
      (SCOPE_GENRE, JVal.obj (ig.genreMap.map
        (fun p => (p.1, JVal.arr (p.2.map JVal.str)))))] SCOPE_GLOBAL
      = some (JVal.arr (ig.global.map JVal.str)) := rfl
  have htmp : jGet [(SCOPE_GLOBAL, JVal.arr (ig.global.map JVal.str)),
      (SCOPE_TMP, JVal.arr (ig.tmp.map JVal.str)),
      (SCOPE_GENRE, JVal.obj (ig.genreMap.map
        (fun p => (p.1, JVal.arr (p.2.map JVal.str)))))] SCOPE_TMP
      = some (JVal.arr (ig.tmp.map JVal.str)) := rfl
  have hgen : jGet [(SCOPE_GLOBAL, JVal.arr (ig.global.map JVal.str)),
      (SCOPE_TMP, JVal.arr (ig.tmp.map JVal.str)),
      (SCOPE_GENRE, JVal.obj (ig.genreMap.map
        (fun p => (p.1, JVal.arr (p.2.map JVal.str)))))] SCOPE_GENRE
      = some (JVal.obj (ig.genreMap.map
        (fun p => (p.1, JVal.arr (p.2.map JVal.str))))) := rfl
  rw [hglobal, htmp, hgen]
  rw [show asWordList (some (JVal.arr (ig.global.map JVal.str)))
      = (ig.global.map JVal.str).map pyStr from rfl]
  rw [show asWordList (some (JVal.arr (ig.tmp.map JVal.str)))
      = (ig.tmp.map JVal.str).map pyStr from rfl]
  rw [map_pyStr_str, map_pyStr_str, asGenreMap_saved]

theorem ensure_rule_scope_id (r : Rule) (h : r.scope ≠ "") :
    ensure_rule_scope r = r := by
  rw [ensure_rule_scope]
  simp [h]

theorem map_ensure_rule_scope_id (rs : List Rule) (h : ∀ r ∈ rs, r.scope ≠ "") :
    rs.map ensure_rule_scope = rs := by
  induction rs with
  | nil => rfl
  | cons r rest ih =>
    rw [List.map_cons, ensure_rule_scope_id r (h r (by simp)),
      ih (fun r' hr' => h r' (by simp [hr']))]

theorem save_workspace_obj (base : List (String × JVal)) (w : Workspace) :
    ∃ D, save_workspace base w = .obj D
    ∧ jGet D "genre" = some (.str w.genre)
    ∧ jGet D "exclude_examples" = some (.arr (w.exclude_examples.map JVal.str))
    ∧ jGet D "keep_examples" = some (.arr (w.keep_examples.map JVal.str))
    ∧ jGet D "sample_titles" = some (.arr (w.sample_titles.map JVal.str))
    ∧ jGet D "ignore_scoped" = some (ignore_scoped_to_jval w.ignore_scoped)
    ∧ jGet D "rules" = some (.arr (w.rules.map rule_to_dict)) := by
  refine ⟨_, rfl, ?_, ?_, ?_, ?_, ?_, ?_⟩
  · rw [jGet_dictSet_ne _ _ _ _ (by decide), jGet_dictSet_ne _ _ _ _ (by decide),
      jGet_dictSet_ne _ _ _ _ (by decide), jGet_dictSet_ne _ _ _ _ (by decide),
      jGet_dictSet_ne _ _ _ _ (by decide), jGet_dictSet_ne _ _ _ _ (by decide),
      jGet_dictSet_self]
  · rw [jGet_dictSet_ne _ _ _ _ (by decide), jGet_dictSet_ne _ _ _ _ (by decide),
      jGet_dictSet_ne _ _ _ _ (by decide), jGet_dictSet_ne _ _ _ _ (by decide),
      jGet_dictSet_ne _ _ _ _ (by decide), jGet_dictSet_self]
  · rw [jGet_dictSet_ne _ _ _ _ (by decide), jGet_dictSet_ne _ _ _ _ (by decide),
      jGet_dictSet_ne _ _ _ _ (by decide), jGet_dictSet_ne _ _ _ _ (by decide),
      jGet_dictSet_self]
  · rw [jGet_dictSet_ne _ _ _ _ (by decide), jGet_dictSet_ne _ _ _ _ (by decide),
      jGet_dictSet_ne _ _ _ _ (by decide), jGet_dictSet_self]
  · rw [jGet_dictSet_ne _ _ _ _ (by decide), jGet_dictSet_ne _ _ _ _ (by decide),
      jGet_dictSet_self]
  · rw [jGet_dictSet_self]

/-- C4 amended: loading a saved workspace restores it exactly, for every
workspace whose genre is non-empty and whose rules all have non-empty key,
name, source and scope, with genre tags either absent or a non-empty list
of words that survive stripping. -/

theorem claim_C4_roundtrip_amended (base : List (String × JVal)) (w : Workspace)
    (hg : w.genre ≠ "")
    (hr : ∀ r ∈ w.rules, RuleGood r) :
    load_workspace (save_workspace base w) = some w := by
  obtain ⟨D, hD, h1, h2, h3, h4, h5, h6⟩ := save_workspace_obj base w
  rw [hD, load_workspace]
  simp only [jGetD, h1, h2, h3, h4, h5, h6, Option.getD_some]
  rw [pyStr_jOr_str_ne _ hg]
  rw [load_ignore_scoped_saved D w.ignore_scoped h5]
  rw [pyStrList_saved, pyStrList_saved, pyStrList_saved]
  have hjor : jOr (JVal.arr (w.rules.map rule_to_dict)) (JVal.arr [])
      = JVal.arr (w.rules.map rule_to_dict) := by
    cases hw : w.rules.map rule_to_dict with
    | nil => rfl
    | cons a l => rfl
  rw [hjor]
  have hload : load_rules_from_list ws_rule_from_dict (w.rules.map rule_to_dict)
      = some w.rules := by
    rw [load_rules_from_list]
    simpa using foldlM_load_saved_rules w.rules [] hr
  simp only [Option.pure_def, Option.bind_eq_bind, Option.some_bind, hload]
  rw [map_ensure_rule_scope_id w.rules (fun r hrm => (hr r hrm).2.2.2.1)]

/-- C4 counterexample: a workspace with non-empty example lists, non-empty
scoped ignore-word buckets and one rule of each scope, but with an empty
genre, does not survive a save/load round trip — the loader replaces the
falsy genre with the default "未選択". -/

theorem claim_C4_counterexample :
    c4demo_bad.exclude_examples ≠ [] ∧ c4demo_bad.keep_examples ≠ []
    ∧ c4demo_bad.sample_titles ≠ []
    ∧ c4demo_bad.ignore_scoped.global ≠ [] ∧ c4demo_bad.ignore_scoped.tmp ≠ []
    ∧ c4demo_bad.ignore_scoped.genreMap ≠ []
    ∧ (∃ r ∈ c4demo_bad.rules, r.scope = SCOPE_TMP)
    ∧ (∃ r ∈ c4demo_bad.rules, r.scope = SCOPE_GLOBAL)
    ∧ (∃ r ∈ c4demo_bad.rules, r.scope = SCOPE_GENRE)
    ∧ load_workspace (save_workspace [] c4demo_bad) ≠ some c4demo_bad := by
  decide

/-- Witness for C4 (amended): the same workspace with a non-empty genre
round-trips exactly. -/

theorem claim_C4_witness :
    load_workspace (save_workspace [] c4demo_good) = some c4demo_good := by
  apply claim_C4_roundtrip_amended
  · decide
  · intro r hrm
    have hrules : c4demo_good.rules
        = [c4demo_rule_tmp, c4demo_rule_global, c4demo_rule_genre] := rfl
    rw [hrules] at hrm
    simp only [List.mem_cons, List.not_mem_nil, or_false] at hrm
    rcases hrm with rfl | rfl | rfl
    · exact ⟨by decide, by decide, by decide, by decide, Or.inl rfl⟩
    · exact ⟨by decide, by decide, by decide, by decide, Or.inl rfl⟩
    · exact ⟨by decide, by decide, by decide, by decide, Or.inl rfl⟩
